import Mathlib

/-!
Shallow embedding of `multiselect.c` (the latest revision in the repository):
the data model and the ICCCM selection-owner state machine of the X11
multiple-selection chooser, together with theorems checking the
specification's claims against it.

X side effects (property writes, SelectionNotify events, pointer warps,
window mapping) are modelled as an explicit list of emitted `XAction`s;
the mutable globals of the main loop become the record `MState` threaded
through the event handlers.
-/

namespace Multiselect

/-- The X atoms the program manipulates.  `XAtom.none` stands for the X
constant `None` (atom 0). -/
inductive XAtom where
  | none
  | primary
  | string
  | utf8String
  | targets
  | mozTextInternal
  | xtSelection1
  | atomAtom
  | cursor
  | other (n : Nat)
deriving DecidableEq

/-- The X constant `CurrentTime` (0). -/
def currentTime : Nat := 0

/-- `MAXNUM`: the maximum number of strings. -/
def MAXNUM : Nat := 20

/-- The local `interval = 80000` (microseconds) of `main`. -/
def interval : Nat := 80000

/-- The NUL character: an unset `-t` separator. -/
def nulChar : Char := Char.ofNat 0

/-- `XSelectionRequestEvent`: the fields of a selection request the program
reads.  Window ids are naturals; `time` is a server timestamp with
`currentTime = 0`. -/
structure XSelectionRequestEvent where
  requestor : Nat
  selection : XAtom
  target : XAtom
  property : XAtom
  time : Nat
deriving DecidableEq

/-- `struct timeval`: seconds and microseconds, as returned by
`gettimeofday`. -/
structure Timeval where
  sec : Nat
  usec : Nat
deriving DecidableEq

/-- Total microseconds of a `Timeval`. -/
def micros (tv : Timeval) : Nat := 1000000 * tv.sec + tv.usec

/-- The clamp `if (now.tv_sec >= last->tv_sec + 2) last->tv_sec = now.tv_sec - 2;`
performed by `ShortTime` on the stored time before comparing. -/
def clampLast (last now : Timeval) : Timeval :=
  if last.sec + 2 ≤ now.sec then { last with sec := now.sec - 2 } else last

/-- The comparison performed by `ShortTime(last, interval, ...)`: whether at
most `itv` microseconds passed between `last` and `now` (after the clamp). -/
def ShortTime (last now : Timeval) (itv : Nat) : Bool :=
  let l := clampLast last now
  decide ((now.usec : Int) + 1000000 * ((now.sec : Int) - (l.sec : Int))
    ≤ (l.usec : Int) + (itv : Int))

/-- `strchr(s, sep)` followed by `+ 1`: the suffix of `s` strictly after the
first occurrence of `sep`, or nothing when `sep` does not occur. -/
def strchrSuffix : List Char → Char → Option (List Char)
  | [], _ => Option.none
  | c :: cs, sep => if c = sep then some cs else strchrSuffix cs sep

/-- `ChosenString`: the payload transmitted for the chosen index `key`.
`key = -1` means no choice (refusal).  A NUL separator means `-t` was not
given and the raw string is sent.  The C code indexes `buffers[key]`
unconditionally; an out-of-range index (undefined behaviour in C) is
modelled as the empty string. -/
def ChosenString (buffers : List (List Char)) (separator : Char) (key : Int) :
    Option (List Char) :=
  if key = -1 then Option.none
  else
    let raw := buffers.getD key.toNat []
    if separator = nulChar then some raw
    else
      match strchrSuffix raw separator with
      | some rest => some rest
      | Option.none => some raw

/-- `UnsupportedSelection`: every target other than STRING, TARGETS and
(unless `stringonly`) UTF8_STRING is unsupported. -/
def UnsupportedSelection (type : XAtom) (stringonly : Bool) : Bool :=
  if type = XAtom.string then false
  else if type = XAtom.targets then false
  else if stringonly = false ∧ type = XAtom.utf8String then false
  else true

/-- The X side effects the handlers can emit. -/
inductive PropPayload where
  | bytes (data : List Char)
  | atoms (data : List XAtom)
deriving DecidableEq

/-- One emitted X request. -/
inductive XAction where
  | changeProperty (win : Nat) (property : XAtom) (type : XAtom)
      (format : Nat) (payload : PropPayload)
  | sendNotify (requestor : Nat) (selection target property : XAtom) (time : Nat)
  | convertSelection
  | externalPaste (requestor : Nat) (payload : List Char)
  | setFocus (win : Nat)
  | warpPointer
  | fakeMiddleClick
  | mapMenu
  | unmapMenu
  | redrawMenu
  | mapFlash
deriving DecidableEq

/-- `RefuseSelection`: SelectionNotify with `property = None` and the
request's `selection`, `target` and `time`. -/
def RefuseSelection (re : XSelectionRequestEvent) : XAction :=
  XAction.sendNotify re.requestor re.selection re.target XAtom.none re.time

/-- `SendSelection` (latest revision): refuse unsupported targets; choose the
destination property (`re.property`, else the `_XT_SELECTION_1` atom, which
the second `XInternAtom` call always produces); refuse requests predating
ownership time `t`; store either the TARGETS atom list or the payload bytes;
notify.  Returns the C result (`True` on refusal) with the actions. -/
def SendSelection (t : Nat) (re : XSelectionRequestEvent) (chars : List Char)
    (stringonly : Bool) : Bool × List XAction :=
  if UnsupportedSelection re.target stringonly then
    (true, [RefuseSelection re])
  else
    let property := if re.property ≠ XAtom.none then re.property else XAtom.xtSelection1
    if re.time < t ∧ re.time ≠ currentTime then
      (true, [RefuseSelection re])
    else if re.target = XAtom.targets then
      (false,
        [XAction.changeProperty re.requestor re.property XAtom.atomAtom 32
          (PropPayload.atoms (if stringonly then [XAtom.string]
            else [XAtom.string, XAtom.utf8String])),
         XAction.sendNotify re.requestor re.selection re.target property re.time])
    else
      (false,
        [XAction.changeProperty re.requestor property re.target 8
          (PropPayload.bytes chars),
         XAction.sendNotify re.requestor re.selection re.target property re.time])

/-- The `-e` external helper, modelled by the exit status of its `test`
invocation: `some serve` with `serve requestor payload = true` means the
probe exits 0 (the helper will paste).  `External` returns the C truth value
of `External(...)`: nonzero (`true`) when there is no helper or the probe
fails, mirroring `if (external == NULL) return True;` and `ret = system(call)`. -/
def External (external : Option (Nat → List Char → Bool)) (requestor : Nat)
    (selection : List Char) : Bool :=
  match external with
  | Option.none => true
  | some serve => !(serve requestor selection)

/-- `AnswerSelection`: refuse when nothing is chosen; otherwise either let the
external helper paste (refusing the X request, and skipping the paste when
`repeated`) or send through `SendSelection`. -/
def AnswerSelection (t : Nat) (external : Option (Nat → List Char → Bool))
    (request : XSelectionRequestEvent) (selection : Option (List Char))
    (stringonly repeated : Bool) : Bool × List XAction :=
  match selection with
  | Option.none => (false, [RefuseSelection request])
  | some sel =>
    if External external request.requestor sel then
      SendSelection t request sel stringonly
    else if repeated then
      (false, [RefuseSelection request])
    else
      (false, [RefuseSelection request, XAction.externalPaste request.requestor sel])

/-- `keyindex`: `'1'..'9'` map to `0..8`, `'a'..'z'` to `9..34`, everything
else to `-1`. -/
def keyindex (k : Int) : Int :=
  if 49 ≤ k ∧ k ≤ 57 then k - 49
  else if 97 ≤ k ∧ k ≤ 122 then k - 97 + 9
  else -1

/-- Keysym constants used by the main loop. -/
def xkF1 : Int := 65470
def xkF2 : Int := 65471
def xkF3 : Int := 65472
def xkF4 : Int := 65473
def xkF5 : Int := 65474
def xkUp : Int := 65362
def xkDown : Int := 65364
def xkReturn : Int := 65293
def xkKPEnter : Int := 65421
def xkBackSpace : Int := 65288
def xkDelete : Int := 65535

/-- The startup flags and constants of one program run.  `w` and `f` are the
menu and flash window ids, `t` the ownership timestamp obtained at
acquisition. -/
structure Config where
  click : Bool
  daemon : Bool
  continuous : Bool
  immediate : Bool
  force : Bool
  separator : Char
  external : Option (Nat → List Char → Bool)
  w : Nat
  f : Nat
  t : Nat

/-- The mutable state of the main loop: the string list and the protocol /
interaction flags.  `request` mirrors the C variable of the same name (a
single slot, kept even after it is served); `prev`/`sfocus` are the saved
focus windows, with `None` as `Option.none` for `prev` and `0` for window
ids written from X `None`. -/
structure MState where
  buffers : List (List Char)
  pending : Bool
  showing : Bool
  chosen : Bool
  firefox : Bool
  openbykey : Bool
  exitnext : Bool
  stayinloop : Bool
  key : Int
  selected : Int
  request : XSelectionRequestEvent
  last : Timeval
  prev : Option Nat
  sfocus : Nat
deriving DecidableEq

/-- `RequestPrimarySelection`: no-op returning `False` when the selection has
no owner or the program owns it itself; otherwise `XConvertSelection`.
`owner` is the owner the X server currently reports. -/
def RequestPrimarySelection (cfg : Config) (owner : Option Nat) :
    Bool × List XAction :=
  match owner with
  | Option.none => (false, [])
  | some o =>
    if o = cfg.w then (false, [])
    else (true, [XAction.convertSelection])

/-- The tail shared by the `SelectionRequest` fallthrough and the
`ShowWindow` pseudo-event: save the focus window (when none is saved yet)
and map the menu.  `focusNow` is what `XGetInputFocus` reports. -/
def handleShowWindowTail (cfg : Config) (st : MState) (focusNow : Nat) :
    MState × List XAction :=
  let st := if st.prev = Option.none ∧ focusNow ≠ cfg.w then
      { st with prev := some focusNow } else st
  (st, [XAction.mapMenu])

/-- The `SelectionRequest` case of the main loop (latest revision), in source
order: refuse requests from self; answer TARGETS; latch `firefox` on the
`text/x-moz-text-internal` sentinel in non-click mode (the sentinel itself
is then refused as unsupported); refuse unsupported targets; refuse while
the menu is showing; answer a latched second firefox request; in click mode
answer after a choice; repeat the previous answer within `interval`;
otherwise store the request as pending (refusing it first in click mode)
and fall through to mapping the menu. -/
def handleSelectionRequest (cfg : Config) (st : MState)
    (re : XSelectionRequestEvent) (now : Timeval) (focusNow : Nat) :
    MState × List XAction :=
  let selection := ChosenString st.buffers cfg.separator st.key
  if re.requestor = cfg.w then
    (st, [RefuseSelection re])
  else if re.target = XAtom.targets then
    (st, (SendSelection cfg.t re [] false).2)
  else
    let st1 := if cfg.click = false ∧ re.target = XAtom.mozTextInternal then
        { st with firefox := true } else st
    if UnsupportedSelection re.target false then
      (st1, [RefuseSelection re])
    else if st1.showing = true then
      (st1, [RefuseSelection re])
    else if st1.firefox = true then
      ({ st1 with firefox := false, last := now },
        (AnswerSelection cfg.t cfg.external re selection false true).2)
    else if cfg.click = true ∧ st1.chosen = true then
      ({ st1 with chosen := false, pending := false, last := now },
        (AnswerSelection cfg.t cfg.external re selection false false).2)
    else if ShortTime st1.last now interval then
      ({ st1 with last := now },
        (AnswerSelection cfg.t cfg.external re selection false true).2)
    else
      let st2 := { st1 with
        last := clampLast st1.last now, request := re, pending := true }
      let tail := handleShowWindowTail cfg st2 focusNow
      (tail.1, (if cfg.click then [RefuseSelection re] else []) ++ tail.2)

/-- The command-key `switch` of the KeyPress case, entered with `key`
already reset to `-1` (state `stc`): `z`/F2 fetch the current selection,
BackSpace/Delete remove at the cursor, `s`/F3 remove the last entry, `q`/F5
clear and mark exit (or leave the loop when the menu is hidden), `d`/F4
clear; other keys do nothing.  Returns the state with the `keep` and
`changed` flags of the loop body. -/
def handleCommandKey (cfg : Config) (stc : MState) (k : Int)
    (owner : Option Nat) : MState × List XAction × Bool × Bool :=
  if k = 122 ∨ k = xkF2 then
    (if (MAXNUM : Int) ≤ (stc.buffers.length : Int) then (stc, [], false, false)
     else
      let rp := RequestPrimarySelection cfg owner
      if rp.1 = false then (stc, rp.2, false, true)
      else (stc, rp.2, false, false))
  else if k = xkBackSpace ∨ k = xkDelete then
    (if stc.selected = -1 then (stc, [], false, false)
     else
      let std := { stc with buffers := stc.buffers.eraseIdx stc.selected.toNat }
      if 0 < std.buffers.length ∨ cfg.daemon = true then (std, [], true, false)
      else (std, [], false, true))
  else if k = 115 ∨ k = xkF3 then
    let std := if 0 < stc.buffers.length then
        { stc with buffers := stc.buffers.dropLast } else stc
    if cfg.daemon = true then (std, [], true, false) else (std, [], false, true)
  else if k = 113 ∨ k = xkF5 then
    let ste := if stc.showing = true then { stc with exitnext := true }
      else { stc with stayinloop := false }
    ({ ste with buffers := [] }, [], false, true)
  else if k = 100 ∨ k = xkF4 then
    ({ stc with buffers := [] }, [], false, true)
  else (stc, [], false, false)

/-- The branch chain of the KeyPress case, before the common unmap tail:
a key with `keyindex` in range picks (when the stored request is not from
self); Up/Down move the cursor modulo the length (a pick in `-i` mode);
Return picks the cursor when valid; any other key runs the command switch
followed by the cursor clamp `if (selected >= num) selected = num - 1`.
The trailing booleans are `early` (an inner `break` skipping the tail),
`keep` and `changed`. -/
def handleKeyPressBranch (cfg : Config) (st : MState) (k : Int)
    (owner : Option Nat) : MState × List XAction × Bool × Bool × Bool :=
  let key := keyindex k
  let num : Int := st.buffers.length
  if 0 ≤ key ∧ key < num ∧ st.request.requestor ≠ cfg.w then
    ({ st with key := key }, [], false, false, false)
  else if k = xkUp ∨ k = xkDown then
    (if num = 0 then ({ st with key := key }, [], true, false, false)
     else
      let sel := Int.tmod (st.selected + (if k = xkUp then -1 else 1) + num) num
      if cfg.immediate = true then
        ({ st with selected := sel, key := sel }, [], false, false, false)
      else
        ({ st with selected := sel, key := key },
          [XAction.redrawMenu], true, false, false))
  else if k = xkReturn ∨ k = xkKPEnter then
    (if num = 0 ∨ st.selected = -1 then
      ({ st with key := key }, [], true, false, false)
     else ({ st with key := st.selected }, [], false, false, false))
  else
    match handleCommandKey cfg { st with key := -1 } k owner with
    | (sti, acts, keep, changed) =>
      let stf := if (sti.buffers.length : Int) ≤ sti.selected then
          { sti with selected := (sti.buffers.length : Int) - 1 } else sti
      (stf, acts, false, keep, changed)

/-- The `KeyPress` case of the main loop: the branch chain, then the common
tail — redraw only when `keep`, otherwise unmap the menu and flash when the
list changed and the loop goes on. -/
def handleKeyPress (cfg : Config) (st : MState) (k : Int) (owner : Option Nat) :
    MState × List XAction :=
  match handleKeyPressBranch cfg st k owner with
  | (stb, acts, early, keep, changed) =>
    if early then (stb, acts)
    else if keep then (stb, acts ++ [XAction.redrawMenu])
    else if changed = false ∨ stb.exitnext = true ∨ stb.stayinloop = false then
      (stb, acts ++ [XAction.unmapMenu])
    else
      (stb, acts ++ [XAction.unmapMenu, XAction.mapFlash])

/-- The `UnmapNotify` case of the main loop: restore the saved focus; exit
when the flash window closed over an empty non-daemon list, or when
`exitnext` is set; on the menu window, clear `showing` and, when a request
is pending (or `-f` forces one), serve it — directly in paste mode or via
the external helper, or else warp the pointer and fake a middle click.
`uw` is the unmapped window (`xunmap.event` and `xunmap.window` coincide
for the two program windows). -/
def handleUnmapNotify (cfg : Config) (st : MState) (uw : Nat) (now : Timeval) :
    MState × List XAction :=
  let focusStep : MState × List XAction :=
    match st.prev with
    | Option.none => (st, [])
    | some p =>
      ({ st with
          sfocus := p,
          prev := if uw = cfg.w then Option.none else st.prev },
       [XAction.setFocus p])
  match focusStep with
  | (st, acts0) =>
    if uw = cfg.f ∧ (st.buffers.length = 0 ∧ cfg.daemon = false) then
      ({ st with stayinloop := false }, acts0)
    else if st.exitnext = true then
      ({ st with stayinloop := false }, acts0)
    else if uw ≠ cfg.w then
      (st, acts0)
    else
      let st := { st with showing := false }
      if st.pending = false ∧ (st.openbykey = true ∧ cfg.force = true → False) then
        (st, acts0)
      else
        let st := { st with last := now }
        let dest := if st.openbykey = true ∧ cfg.force = true then st.sfocus
          else st.request.requestor
        let selection := ChosenString st.buffers cfg.separator st.key
        if cfg.click = false ∨ External cfg.external dest (selection.getD []) = false then
          let req := if st.openbykey = true ∧ cfg.force = true then
              { st.request with
                requestor := st.sfocus, target := XAtom.string,
                property := XAtom.none }
            else st.request
          ({ st with
              request := req, sfocus := 0, pending := false,
              openbykey := false },
            acts0 ++ (AnswerSelection cfg.t cfg.external req selection false false).2)
        else if st.key ≠ -1 then
          ({ st with chosen := true, pending := true, openbykey := false },
            acts0 ++ [XAction.warpPointer, XAction.fakeMiddleClick])
        else
          ({ st with openbykey := false }, acts0)

/-- The `SelectionClear` case of the main loop (latest revision): ignore when
already exiting; exit immediately in non-daemon mode; in continuous mode
with a non-full list, request the new owner's selection (flashing a message
when there is no owner to ask). -/
def handleSelectionClear (cfg : Config) (st : MState) (owner : Option Nat) :
    MState × List XAction :=
  if st.exitnext = true then (st, [])
  else if cfg.daemon = false then ({ st with stayinloop := false }, [])
  else if cfg.continuous = false then (st, [])
  else if MAXNUM ≤ st.buffers.length then (st, [])
  else
    let rp := RequestPrimarySelection cfg owner
    if rp.1 = false then (st, rp.2 ++ [XAction.mapFlash])
    else (st, rp.2)

/-- The X events the embedded fragment of the main loop consumes.  Each
event carries the environment values the corresponding handler reads from
the server (`gettimeofday`, the input focus, the selection owner). -/
inductive XEvent where
  | selectionRequest (re : XSelectionRequestEvent) (now : Timeval) (focusNow : Nat)
  | keyPress (k : Int) (owner : Option Nat) (focusNow : Nat)
  | unmapNotify (uw : Nat) (now : Timeval)
  | selectionClear (owner : Option Nat)
  | mapNotify (mw : Nat)

/-- One main-loop iteration: dispatch an event to its handler.  A KeyPress
of F1 with the menu hidden becomes the `ShowWindow` pseudo-event and sets
`openbykey`, as in the pre-switch block of the loop. -/
def step (cfg : Config) (st : MState) (e : XEvent) : MState × List XAction :=
  match e with
  | XEvent.selectionRequest re now focusNow =>
    handleSelectionRequest cfg st re now focusNow
  | XEvent.keyPress k owner focusNow =>
    if st.showing = false ∧ k = xkF1 then
      handleShowWindowTail cfg { st with openbykey := true } focusNow
    else handleKeyPress cfg st k owner
  | XEvent.unmapNotify uw now => handleUnmapNotify cfg st uw now
  | XEvent.selectionClear owner => handleSelectionClear cfg st owner
  | XEvent.mapNotify mw =>
    (if mw = cfg.w then { st with showing := true } else st, [])

/-- The main loop over a list of events: stop as soon as `stayinloop` is
cleared (the `for (...; stayinloop;)` condition), collecting all emitted
actions. -/
def run (cfg : Config) : MState → List XEvent → MState × List XAction
  | st, [] => (st, [])
  | st, e :: es =>
    if st.stayinloop = false then (st, [])
    else
      let s1 := step cfg st e
      let s2 := run cfg s1.1 es
      (s2.1, s1.2 ++ s2.2)

/-- The state at the top of the main loop.  The C `request` variable is
uninitialized at this point; it is modelled as zeroed memory. -/
def initState (buffers : List (List Char)) : MState :=
  { buffers := buffers, pending := false, showing := false, chosen := false,
    firefox := false, openbykey := false, exitnext := false, stayinloop := true,
    key := -1, selected := -1,
    request := { requestor := 0, selection := XAtom.none, target := XAtom.none,
                 property := XAtom.none, time := 0 },
    last := { sec := 0, usec := 0 }, prev := Option.none, sfocus := 0 }

/-- Whether an action is a SelectionNotify to the requestor of `re` whose
`selection`, `target` and `time` match `re`. -/
def isMatchingNotify (re : XSelectionRequestEvent) : XAction → Bool
  | XAction.sendNotify r s tg _ tm =>
    decide (r = re.requestor ∧ s = re.selection ∧ tg = re.target ∧ tm = re.time)
  | _ => false

/-- How many SelectionNotify events matching `re` an action list contains. -/
def matchingNotifies (acts : List XAction) (re : XSelectionRequestEvent) : Nat :=
  (acts.filter (isMatchingNotify re)).length

/-- The `property` fields of the SelectionNotify events in an action list. -/
def notifyProperties (acts : List XAction) : List XAtom :=
  acts.filterMap (fun a => match a with
    | XAction.sendNotify _ _ _ p _ => some p
    | _ => Option.none)

/-- The payload bytes written by the first string property write in an
action list: the data of a successful string answer, `Option.none` for a
refusal. -/
def sentBytes : List XAction → Option (List Char)
  | [] => Option.none
  | XAction.changeProperty _ _ _ _ (PropPayload.bytes s) :: _ => some s
  | _ :: rest => sentBytes rest

/-! ## Concrete fixtures used by witnesses and counterexamples -/

/-- A run in paste mode (`-p`, so `click = False`), no other flags, no
separator, no external helper; menu window 1, flash window 2, ownership
timestamp 10. -/
def cfgPaste : Config :=
  { click := false, daemon := false, continuous := false, immediate := false,
    force := false, separator := nulChar, external := Option.none,
    w := 1, f := 2, t := 10 }

/-- A run in the default click mode, otherwise as `cfgPaste`. -/
def cfgClick : Config :=
  { cfgPaste with click := true }

/-- A plain STRING selection request from client window 5. -/
def reString : XSelectionRequestEvent :=
  { requestor := 5, selection := XAtom.primary, target := XAtom.string,
    property := XAtom.primary, time := 0 }

/-- A STRING request from client 5 whose property field is `None`. -/
def reNoneProp : XSelectionRequestEvent :=
  { reString with property := XAtom.none }

/-- A TARGETS request from client 5. -/
def reTargets : XSelectionRequestEvent :=
  { reString with target := XAtom.targets }

/-- A second client's STRING request (window 6). -/
def reString6 : XSelectionRequestEvent :=
  { reString with requestor := 6 }

/-- The firefox sentinel request from client 5. -/
def reMoz : XSelectionRequestEvent :=
  { reString with target := XAtom.mozTextInternal }

/-- A click-mode state right after the user picked entry 0 and the fake
middle click was sent: the choice is latched and the original request
(from window 5) is still marked pending. -/
def stChosen : MState :=
  { initState [['h', 'i']] with
    pending := true, chosen := true, key := 0, request := reString }

/-- A paste-mode state right after the firefox sentinel latched, with
entry 0 previously chosen. -/
def stFirefox : MState :=
  { initState [['h', 'i']] with firefox := true, key := 0 }

/-- A showing-menu state with thirteen entries and a stored outside
request. -/
def st13 : MState :=
  { initState (List.replicate 13 ['x']) with
    showing := true, pending := true, request := reString }

/-- A state with a stored request still pending. -/
def stPend : MState :=
  { initState [['a']] with pending := true, request := reString }

/-- A continuous-capture run: `-c` implies `-d`. -/
def cfgCont : Config :=
  { cfgPaste with daemon := true, continuous := true }

/-- A state that served an answer for entry 0 at second 100. -/
def stShort : MState :=
  { initState [['h', 'i']] with key := 0, last := { sec := 100, usec := 0 } }

/-- 50 ms after `stShort.last`. -/
def nowA : Timeval := { sec := 100, usec := 50000 }

/-- 100 ms after `stShort.last`, 50 ms after `nowA`. -/
def nowB : Timeval := { sec := 100, usec := 100000 }

/-- The state after serving `reString` from `stShort` at `nowA`. -/
def stAw : MState := { stShort with last := nowA }

/-- The actions serving `reString` from `stShort`: the payload write and
its notification. -/
def aAw : List XAction :=
  [XAction.changeProperty 5 XAtom.primary XAtom.string 8
    (PropPayload.bytes ['h', 'i']),
   XAction.sendNotify 5 XAtom.primary XAtom.string XAtom.primary 0]

/-- The actions serving the repeat `reString6` from `stAw` at `nowB`. -/
def aBw : List XAction :=
  [XAction.changeProperty 6 XAtom.primary XAtom.string 8
    (PropPayload.bytes ['h', 'i']),
   XAction.sendNotify 6 XAtom.primary XAtom.string XAtom.primary 0]

/-- A paste-mode state with the menu up, a stored pending request from
client 5, entry 0 picked, and a saved focus window. -/
def stUnmapW : MState :=
  { initState [['h', 'i']] with
    pending := true, showing := true, key := 0, request := reString,
    prev := some 7 }

/-- A quit trace in paste mode: a request is stored and the menu mapped,
the menu appears, the user presses 'q', the menu unmaps. -/
def evC1 : List XEvent :=
  [XEvent.selectionRequest reString { sec := 100, usec := 0 } 7,
   XEvent.mapNotify 1,
   XEvent.keyPress 113 Option.none 7,
   XEvent.unmapNotify 1 { sec := 101, usec := 0 }]

/-! ## Auxiliary lemmas -/

theorem strchrSuffix_eq_none_iff (sep : Char) (l : List Char) :
    strchrSuffix l sep = Option.none ↔ sep ∉ l := by
  induction l with
  | nil => simp [strchrSuffix]
  | cons c cs ih =>
    by_cases h : c = sep
    · subst h
      simp [strchrSuffix]
    · have h2 : ¬ sep = c := fun hs => h hs.symm
      simp [strchrSuffix, h, ih, h2]

theorem strchrSuffix_of_mem (sep : Char) (l : List Char) (h : sep ∈ l) :
    strchrSuffix l sep = some (l.drop (l.indexOf sep + 1)) := by
  induction l with
  | nil => cases h
  | cons c cs ih =>
    by_cases hc : c = sep
    · subst hc
      simp [strchrSuffix, List.indexOf_cons_self]
    · have hmem : sep ∈ cs := by
        rcases List.mem_cons.mp h with h1 | h2
        · exact absurd h1.symm hc
        · exact h2
      rw [List.indexOf_cons_ne _ hc]
      simp [strchrSuffix, hc, ih hmem]

theorem strchrSuffix_length (sep : Char) (l r : List Char)
    (h : strchrSuffix l sep = some r) : r.length < l.length := by
  induction l generalizing r with
  | nil => simp [strchrSuffix] at h
  | cons c cs ih =>
    by_cases hc : c = sep
    · subst hc
      simp [strchrSuffix] at h
      subst h
      simp [Nat.lt_succ_self]
    · simp [strchrSuffix, hc] at h
      exact Nat.lt_trans (ih r h) (Nat.lt_succ_self _)

/-- The first component of `handleKeyPress` is the state produced by the
branch chain: the common tail only chooses the emitted actions. -/
theorem handleKeyPress_fst (cfg : Config) (st : MState) (k : Int)
    (owner : Option Nat) :
    (handleKeyPress cfg st k owner).1 = (handleKeyPressBranch cfg st k owner).1 := by
  unfold handleKeyPress
  rcases handleKeyPressBranch cfg st k owner with ⟨stb, acts, early, keep, changed⟩
  cases early <;> cases keep <;> (dsimp only; split_ifs <;> rfl)

/-- The command switch never changes the chosen index. -/
theorem handleCommandKey_key (cfg : Config) (stc : MState) (k : Int)
    (owner : Option Nat) :
    (handleCommandKey cfg stc k owner).1.key = stc.key := by
  unfold handleCommandKey
  split_ifs <;> first
    | rfl
    | (dsimp only; split <;> rfl)

/-- Truncated remainder sends the wrap arguments produced by the Up/Down
cursor arithmetic into `[0, n)`. -/
theorem tmod_wrap (a n : Int) (hn : 0 < n) (h : 0 ≤ a ∨ (a = -1 ∧ n = 1)) :
    0 ≤ Int.tmod a n ∧ Int.tmod a n < n := by
  rcases h with ha | ⟨ha, hn1⟩
  · rw [Int.tmod_eq_emod ha (le_of_lt hn)]
    exact ⟨Int.emod_nonneg a (ne_of_gt hn), Int.emod_lt_of_pos a hn⟩
  · subst ha
    subst hn1
    decide

/-- `ShortTime` holds whenever at most `itv` microseconds elapsed between
`last` and a later well-formed `now`. -/
theorem shortTime_of_elapsed (last now : Timeval) (itv : Nat)
    (h2 : micros last ≤ micros now)
    (h3 : micros now - micros last ≤ itv) :
    ShortTime last now itv = true := by
  unfold micros at h2 h3
  unfold ShortTime clampLast
  dsimp only
  split_ifs with hcl <;> (rw [decide_eq_true_eq]; (try dsimp only); omega)

/-- With no external helper and a supported, non-TARGETS, well-timed
request, `AnswerSelection` transmits exactly the chosen payload (and
refuses exactly when nothing is chosen). -/
theorem sentBytes_answerSelection (t : Nat) (re : XSelectionRequestEvent)
    (sel : Option (List Char)) (rep : Bool)
    (hsup : UnsupportedSelection re.target false = false)
    (htg : re.target ≠ XAtom.targets)
    (htime : re.time = currentTime ∨ t ≤ re.time) :
    sentBytes (AnswerSelection t Option.none re sel false rep).2 = sel := by
  have hstale : ¬(re.time < t ∧ re.time ≠ currentTime) := by
    rcases htime with h0 | hge
    · rw [h0]
      simp
    · intro hand
      exact absurd hand.1 (Nat.not_lt.mpr hge)
  cases sel with
  | none => simp [AnswerSelection, sentBytes, RefuseSelection]
  | some s =>
    simp [AnswerSelection, External, SendSelection, hsup, htg, hstale,
      sentBytes, RefuseSelection]

/-- A request reaching the handler in a post-serve state (menu down, latch
clear, helper absent) within the short-time window is answered with the
currently chosen payload, whichever of the chosen/short-time branches it
takes. -/
theorem serve_branch_bytes (cfg : Config) (stA : MState)
    (re2 : XSelectionRequestEvent) (now2 : Timeval) (f2 : Nat)
    (stB : MState) (aB : List XAction)
    (h2 : handleSelectionRequest cfg stA re2 now2 f2 = (stB, aB))
    (hext : cfg.external = Option.none)
    (hself2 : re2.requestor ≠ cfg.w)
    (hsup2 : UnsupportedSelection re2.target false = false)
    (htg2 : re2.target ≠ XAtom.targets)
    (hmoz2 : re2.target ≠ XAtom.mozTextInternal)
    (hshow2 : stA.showing = false)
    (hfire2 : stA.firefox = false)
    (ht2 : re2.time = currentTime ∨ cfg.t ≤ re2.time)
    (hst : ShortTime stA.last now2 interval = true) :
    sentBytes aB = ChosenString stA.buffers cfg.separator stA.key := by
  simp only [handleSelectionRequest] at h2
  rw [hext] at h2
  rw [if_neg hself2, if_neg htg2] at h2
  rw [if_neg (show ¬(cfg.click = false ∧ re2.target = XAtom.mozTextInternal) from
    fun hand => hmoz2 hand.2)] at h2
  rw [if_neg (show ¬(UnsupportedSelection re2.target false = true) from
    by simp [hsup2])] at h2
  rw [if_neg (show ¬(stA.showing = true) from by simp [hshow2])] at h2
  rw [if_neg (show ¬(stA.firefox = true) from by simp [hfire2])] at h2
  by_cases hch : cfg.click = true ∧ stA.chosen = true
  · rw [if_pos hch, Prod.mk.injEq] at h2
    rw [← h2.2]
    exact sentBytes_answerSelection cfg.t re2 _ false hsup2 htg2 ht2
  · rw [if_neg hch, if_pos hst, Prod.mk.injEq] at h2
    rw [← h2.2]
    exact sentBytes_answerSelection cfg.t re2 _ true hsup2 htg2 ht2

/-! ## C9: label/payload split -/

/-- C9: for every in-range entry, `ChosenString` transmits the raw string
exactly when no separator is configured (`-t` unset, NUL) or the separator
byte does not occur in it; otherwise it transmits the suffix of the raw
string after the first occurrence of the separator byte. -/
theorem chosenString_payload_split (buffers : List (List Char)) (sep : Char)
    (k : Nat) (h : k < buffers.length) :
    (ChosenString buffers sep (k : Int) = some (buffers.get ⟨k, h⟩) ↔
      (sep = nulChar ∨ sep ∉ buffers.get ⟨k, h⟩)) ∧
    (sep ≠ nulChar → sep ∈ buffers.get ⟨k, h⟩ →
      ChosenString buffers sep (k : Int) =
        some ((buffers.get ⟨k, h⟩).drop ((buffers.get ⟨k, h⟩).indexOf sep + 1))) := by
  have hk : ((k : Int)) ≠ -1 := by omega
  have hraw : buffers.getD ((k : Int)).toNat [] = buffers.get ⟨k, h⟩ := by
    rw [Int.toNat_natCast]
    rw [List.getD_eq_getElem?_getD, List.getElem?_eq_getElem h]
    simp [List.get_eq_getElem]
  constructor
  · constructor
    · intro heq
      by_cases hsep : sep = nulChar
      · exact Or.inl hsep
      · refine Or.inr ?_
        intro hmem
        rw [ChosenString, if_neg hk] at heq
        simp only [hraw] at heq
        rw [if_neg hsep, strchrSuffix_of_mem sep _ hmem] at heq
        have hlen := strchrSuffix_length sep (buffers.get ⟨k, h⟩) _
          (strchrSuffix_of_mem sep _ hmem)
        have : (buffers.get ⟨k, h⟩).drop ((buffers.get ⟨k, h⟩).indexOf sep + 1)
            = buffers.get ⟨k, h⟩ := by
          exact Option.some.inj heq
        rw [this] at hlen
        exact absurd hlen (lt_irrefl _)
    · intro hcase
      rw [ChosenString, if_neg hk]
      simp only [hraw]
      rcases hcase with hsep | hmem
      · rw [if_pos hsep]
      · by_cases hsep : sep = nulChar
        · rw [if_pos hsep]
        · rw [if_neg hsep]
          rw [(strchrSuffix_eq_none_iff sep _).mpr hmem]
  · intro hsep hmem
    rw [ChosenString, if_neg hk]
    simp only [hraw]
    rw [if_neg hsep, strchrSuffix_of_mem sep _ hmem]

/-- C9 witness: `multiselect 'k: v' -t ':'` sends ` v`. -/
theorem chosenString_payload_split_witness :
    (ChosenString [['k', ':', ' ', 'v']] ':' ((0 : Nat) : Int)
        = some ([['k', ':', ' ', 'v']].get ⟨0, by decide⟩) ↔
      (':' = nulChar ∨ ':' ∉ [['k', ':', ' ', 'v']].get ⟨0, by decide⟩)) ∧
    (':' ≠ nulChar → ':' ∈ [['k', ':', ' ', 'v']].get ⟨0, by decide⟩ →
      ChosenString [['k', ':', ' ', 'v']] ':' ((0 : Nat) : Int) =
        some (([['k', ':', ' ', 'v']].get ⟨0, by decide⟩).drop
          (([['k', ':', ' ', 'v']].get ⟨0, by decide⟩).indexOf ':' + 1))) :=
  chosenString_payload_split [['k', ':', ' ', 'v']] ':' 0 (by decide)

/-! ## C7: destination property fallback -/

/-- C7 counterexample: in the latest revision of `SendSelection`, a request
with `property = None` and the perfectly available target STRING is *not*
answered on the target atom: the destination (and the notify's property) is
`_XT_SELECTION_1` directly, so the claimed fallback to `R.target` does not
exist. -/
theorem property_fallback_counterexample :
    notifyProperties (SendSelection 10 reNoneProp ['h', 'i'] false).2
        = [XAtom.xtSelection1] ∧
    XAtom.xtSelection1 ≠ reNoneProp.target := by decide

/-- C7 (amended): when a reply is sent, the destination property is
`R.property` when it is not `None`; when `R.property` is `None` the code
goes directly to the atom `_XT_SELECTION_1` (interning it when it does not
exist); `R.target` is never used as a fallback. -/
theorem property_fallback (t : Nat) (re : XSelectionRequestEvent)
    (chars : List Char) (stringonly : Bool)
    (hsup : UnsupportedSelection re.target stringonly = false)
    (htime : re.time = currentTime ∨ t ≤ re.time) :
    notifyProperties (SendSelection t re chars stringonly).2
      = [if re.property ≠ XAtom.none then re.property else XAtom.xtSelection1] := by
  have hstale : ¬(re.time < t ∧ re.time ≠ currentTime) := by
    rcases htime with h0 | hge
    · rw [h0]
      simp
    · intro hand
      exact absurd hand.1 (Nat.not_lt.mpr hge)
  by_cases htg : re.target = XAtom.targets
  · rw [htg] at hsup
    simp [SendSelection, hsup, hstale, htg, notifyProperties]
  · simp [SendSelection, hsup, hstale, htg, notifyProperties]

/-- C7 witness: a STRING request with `property = None` is notified on
`_XT_SELECTION_1`. -/
theorem property_fallback_witness :
    notifyProperties (SendSelection 10 reNoneProp ['h', 'i'] false).2
      = [if reNoneProp.property ≠ XAtom.none then reNoneProp.property
         else XAtom.xtSelection1] :=
  property_fallback 10 reNoneProp ['h', 'i'] false (by decide) (Or.inl (by decide))

/-! ## C4: TARGETS roundtrip -/

/-- C4 counterexample: a TARGETS request is *not* answered for every
timestamp: one whose `time` (5) predates the ownership timestamp (10) and
differs from `CurrentTime` is refused, and its SelectionNotify carries
`property = None`. -/
theorem targets_roundtrip_counterexample :
    (handleSelectionRequest cfgClick (initState [['a']])
      { reTargets with time := 5 } { sec := 100, usec := 0 } 7).2
      = [XAction.sendNotify 5 XAtom.primary XAtom.targets XAtom.none 5] := by decide

/-- C4 (amended): a TARGETS request from another client whose property field
is not `None` and whose time is `CurrentTime` or does not predate the
ownership timestamp is — in every pending state — answered by writing the
format-32, type-ATOM array [STRING, UTF8_STRING] to the request's property,
and the SelectionNotify sent for it carries that property, never `None`. -/
theorem targets_roundtrip (cfg : Config) (st : MState)
    (re : XSelectionRequestEvent) (now : Timeval) (focusNow : Nat)
    (hself : re.requestor ≠ cfg.w)
    (htg : re.target = XAtom.targets)
    (hprop : re.property ≠ XAtom.none)
    (htime : re.time = currentTime ∨ cfg.t ≤ re.time) :
    (handleSelectionRequest cfg st re now focusNow).2
      = [XAction.changeProperty re.requestor re.property XAtom.atomAtom 32
          (PropPayload.atoms [XAtom.string, XAtom.utf8String]),
         XAction.sendNotify re.requestor re.selection re.target re.property re.time] := by
  have hstale : ¬(re.time < cfg.t ∧ re.time ≠ currentTime) := by
    rcases htime with h0 | hge
    · rw [h0]
      simp
    · intro hand
      exact absurd hand.1 (Nat.not_lt.mpr hge)
  simp [handleSelectionRequest, SendSelection, UnsupportedSelection,
    hself, htg, hprop, hstale]

/-- C4 witness: a well-timed TARGETS request receives the atom pair on its
own property. -/
theorem targets_roundtrip_witness :
    (handleSelectionRequest cfgClick (initState [['a']])
      reTargets { sec := 100, usec := 0 } 7).2
      = [XAction.changeProperty reTargets.requestor reTargets.property
          XAtom.atomAtom 32 (PropPayload.atoms [XAtom.string, XAtom.utf8String]),
         XAction.sendNotify reTargets.requestor reTargets.selection
          reTargets.target reTargets.property reTargets.time] :=
  targets_roundtrip cfgClick (initState [['a']])
    reTargets { sec := 100, usec := 0 } 7
    (by decide) (by decide) (by decide) (Or.inl (by decide))

/-! ## C3: single pending request -/

/-- C3 counterexample: the code's guard is `showing`, not `pending`.  In
click mode, with a request stored as pending and a choice latched (the
state after the synthetic middle click), a newly arriving SelectionRequest
is *not* refused: it is answered with the chosen payload (property write
plus a SelectionNotify whose property is not `None`). -/
theorem pending_refusal_counterexample :
    stChosen.pending = true ∧
    (handleSelectionRequest cfgClick stChosen reString6
      { sec := 100, usec := 0 } 7).2
      = [XAction.changeProperty 6 XAtom.primary XAtom.string 8
          (PropPayload.bytes ['h', 'i']),
         XAction.sendNotify 6 XAtom.primary XAtom.string XAtom.primary 0] := by decide

/-- C3 (amended): at most one request is ever stored (the single `request`
slot); while the *menu is showing*, any non-TARGETS SelectionRequest is
refused immediately with `property = None` and neither the stored request
nor the pending flag changes, so it cannot replace or preempt the stored
request. -/
theorem showing_refuses_requests (cfg : Config) (st : MState)
    (re : XSelectionRequestEvent) (now : Timeval) (focusNow : Nat)
    (hshow : st.showing = true)
    (htg : re.target ≠ XAtom.targets) :
    (handleSelectionRequest cfg st re now focusNow).2 = [RefuseSelection re] ∧
    (handleSelectionRequest cfg st re now focusNow).1.request = st.request ∧
    (handleSelectionRequest cfg st re now focusNow).1.pending = st.pending := by
  by_cases hself : re.requestor = cfg.w <;>
    by_cases hsup : UnsupportedSelection re.target false = true <;>
    by_cases hmoz : cfg.click = false ∧ re.target = XAtom.mozTextInternal <;>
    simp [handleSelectionRequest, hself, htg, hsup, hmoz, hshow]

/-- C3 witness: with the menu showing, a STRING request is refused and the
stored request survives. -/
theorem showing_refuses_requests_witness :
    (handleSelectionRequest cfgPaste { stChosen with showing := true } reString6
      { sec := 100, usec := 0 } 7).2 = [RefuseSelection reString6] ∧
    (handleSelectionRequest cfgPaste { stChosen with showing := true } reString6
      { sec := 100, usec := 0 } 7).1.request
        = ({ stChosen with showing := true } : MState).request ∧
    (handleSelectionRequest cfgPaste { stChosen with showing := true } reString6
      { sec := 100, usec := 0 } 7).1.pending
        = ({ stChosen with showing := true } : MState).pending :=
  showing_refuses_requests cfgPaste { stChosen with showing := true } reString6
    { sec := 100, usec := 0 } 7 (by decide) (by decide)

/-! ## C5: firefox latch -/

/-- C5: in paste mode (`-p`), a request whose target is the sentinel
`text/x-moz-text-internal` sets the `firefox` latch (the sentinel request
itself is refused, the sentinel being an unsupported target), and the next
incoming request from another client — with the menu down and a payload
previously chosen — is answered with that previously chosen payload, after
which the latch is cleared and the serve time `last` is updated. -/
theorem firefox_latch (cfg : Config) (st0 st : MState)
    (re1 re2 : XSelectionRequestEvent) (now1 now2 : Timeval)
    (f1 f2 : Nat) (payload : List Char)
    (hclick : cfg.click = false)
    (hext : cfg.external = Option.none)
    (hself1 : re1.requestor ≠ cfg.w)
    (hmoz : re1.target = XAtom.mozTextInternal)
    (hself2 : re2.requestor ≠ cfg.w)
    (htg2 : re2.target = XAtom.string)
    (hprop2 : re2.property ≠ XAtom.none)
    (htime2 : re2.time = currentTime ∨ cfg.t ≤ re2.time)
    (hshow : st.showing = false)
    (hfire : st.firefox = true)
    (hsel : ChosenString st.buffers cfg.separator st.key = some payload) :
    handleSelectionRequest cfg st0 re1 now1 f1
        = ({ st0 with firefox := true }, [RefuseSelection re1]) ∧
    handleSelectionRequest cfg st re2 now2 f2
        = ({ st with firefox := false, last := now2 },
           [XAction.changeProperty re2.requestor re2.property re2.target 8
              (PropPayload.bytes payload),
            XAction.sendNotify re2.requestor re2.selection re2.target
              re2.property re2.time]) := by
  have hstale2 : ¬(re2.time < cfg.t ∧ re2.time ≠ currentTime) := by
    rcases htime2 with h0 | hge
    · rw [h0]
      simp
    · intro hand
      exact absurd hand.1 (Nat.not_lt.mpr hge)
  constructor
  · simp [handleSelectionRequest, hself1, hmoz, hclick, UnsupportedSelection]
  · simp [handleSelectionRequest, AnswerSelection, SendSelection, External,
      UnsupportedSelection, hself2, htg2, hprop2, hshow, hfire, hsel, hext,
      hstale2, hclick]

/-- C5 witness: sentinel then STRING request against `stFirefox`. -/
theorem firefox_latch_witness :
    handleSelectionRequest cfgPaste (initState [['h', 'i']]) reMoz
      { sec := 99, usec := 0 } 7
        = ({ initState [['h', 'i']] with firefox := true }, [RefuseSelection reMoz]) ∧
    handleSelectionRequest cfgPaste stFirefox reString6
      { sec := 100, usec := 0 } 7
        = ({ stFirefox with firefox := false, last := { sec := 100, usec := 0 } },
           [XAction.changeProperty reString6.requestor reString6.property
              reString6.target 8 (PropPayload.bytes ['h', 'i']),
            XAction.sendNotify reString6.requestor reString6.selection
              reString6.target reString6.property reString6.time]) :=
  firefox_latch cfgPaste (initState [['h', 'i']]) stFirefox reMoz reString6
    { sec := 99, usec := 0 } { sec := 100, usec := 0 } 7 7 ['h', 'i']
    (by decide) rfl (by decide) (by decide) (by decide) (by decide)
    (by decide) (Or.inl (by decide)) (by decide) (by decide) (by decide)

/-! ## C8: clearing the list -/

/-- C8 counterexample: with thirteen entries and a stored outside request,
pressing 'd' does *not* clear the list: `keyindex('d') = 12` is a valid
index, so 'd' picks entry 12 and the list keeps its thirteen entries. -/
theorem clear_list_counterexample :
    st13.buffers.length = 13 ∧
    (handleKeyPress cfgClick st13 100 Option.none).1.buffers.length = 13 ∧
    (handleKeyPress cfgClick st13 100 Option.none).1.key = 12 := by decide

/-- C8 (amended): pressing F4 clears the list for every list length;
pressing 'd' clears the list when it is not intercepted as a pick, i.e.
when the list has at most 12 entries (otherwise 'd', whose `keyindex` is
12, picks entry 12 instead). -/
theorem clear_list_keys (cfg : Config) (st : MState) (owner : Option Nat)
    (hlen : st.buffers.length ≤ 12) :
    (handleKeyPress cfg st xkF4 owner).1.buffers = [] ∧
    (handleKeyPress cfg st 100 owner).1.buffers = [] := by
  have hx : ∀ sti : MState,
      (if (sti.buffers.length : Int) ≤ sti.selected then
        { sti with selected := (sti.buffers.length : Int) - 1 }
       else sti).buffers = sti.buffers := by
    intro sti
    split <;> rfl
  constructor
  · rw [handleKeyPress_fst]
    have h1 : keyindex xkF4 = -1 := by decide
    simp only [handleKeyPressBranch, h1]
    rw [if_neg (by simp)]
    rw [if_neg (by decide), if_neg (by decide)]
    have hcmd : handleCommandKey cfg { st with key := -1 } xkF4 owner
        = ({ { st with key := -1 } with buffers := [] }, [], false, true) := by
      unfold handleCommandKey
      rw [if_neg (by decide), if_neg (by decide), if_neg (by decide),
        if_neg (by decide), if_pos (by decide)]
    rw [hcmd]
    exact hx _
  · rw [handleKeyPress_fst]
    have h2 : keyindex 100 = 12 := by decide
    have h3 : ¬((0 : Int) ≤ 12 ∧ (12 : Int) < (st.buffers.length : Int) ∧
        st.request.requestor ≠ cfg.w) := by
      intro hand
      have := hand.2.1
      omega
    simp only [handleKeyPressBranch, h2]
    rw [if_neg h3]
    rw [if_neg (by decide), if_neg (by decide)]
    have hcmd : handleCommandKey cfg { st with key := -1 } 100 owner
        = ({ { st with key := -1 } with buffers := [] }, [], false, true) := by
      unfold handleCommandKey
      rw [if_neg (by decide), if_neg (by decide), if_neg (by decide),
        if_neg (by decide), if_pos (by decide)]
    rw [hcmd]
    exact hx _

/-- C8 witness: both F4 and 'd' clear a one-entry list. -/
theorem clear_list_keys_witness :
    (handleKeyPress cfgClick (initState [['a']]) xkF4 Option.none).1.buffers = [] ∧
    (handleKeyPress cfgClick (initState [['a']]) 100 Option.none).1.buffers = [] :=
  clear_list_keys cfgClick (initState [['a']]) Option.none (by decide)

/-! ## C10: choice index safety -/

/-- C10: for every KeyPress handled by the menu key handler, given the
cursor invariant (cursor `-1` or in `[0, len)`), the produced choice index
is `-1` (a refusal) or lies in `[0, len)` of the resulting list: out-of-
range digit/letter keys and all command keys resolve to `-1`, Up/Down picks
are reduced modulo the length, Return picks are guarded by cursor
validity. -/
theorem keypress_choice_in_range (cfg : Config) (st : MState) (k : Int)
    (owner : Option Nat)
    (hsel : st.selected = -1 ∨
      (0 ≤ st.selected ∧ st.selected < (st.buffers.length : Int))) :
    (handleKeyPress cfg st k owner).1.key = -1 ∨
    (0 ≤ (handleKeyPress cfg st k owner).1.key ∧
      (handleKeyPress cfg st k owner).1.key
        < ((handleKeyPress cfg st k owner).1.buffers.length : Int)) := by
  rw [handleKeyPress_fst]
  simp only [handleKeyPressBranch]
  by_cases hpick : 0 ≤ keyindex k ∧ keyindex k < (st.buffers.length : Int) ∧
      st.request.requestor ≠ cfg.w
  · rw [if_pos hpick]
    exact Or.inr ⟨hpick.1, hpick.2.1⟩
  · rw [if_neg hpick]
    by_cases hud : k = xkUp ∨ k = xkDown
    · rw [if_pos hud]
      have hki : keyindex k = -1 := by
        rcases hud with h | h <;> subst h <;> decide
      by_cases h0 : (st.buffers.length : Int) = 0
      · rw [if_pos h0]
        exact Or.inl hki
      · rw [if_neg h0]
        have hn : (0 : Int) < (st.buffers.length : Int) := by omega
        by_cases him : cfg.immediate = true
        · rw [if_pos him]
          refine Or.inr ?_
          apply tmod_wrap
          · exact hn
          · by_cases hup : k = xkUp
            · rw [if_pos hup]
              omega
            · rw [if_neg hup]
              left
              omega
        · rw [if_neg him]
          exact Or.inl hki
    · rw [if_neg hud]
      by_cases hre : k = xkReturn ∨ k = xkKPEnter
      · rw [if_pos hre]
        have hki : keyindex k = -1 := by
          rcases hre with h | h <;> subst h <;> decide
        by_cases hg : (st.buffers.length : Int) = 0 ∨ st.selected = -1
        · rw [if_pos hg]
          exact Or.inl hki
        · rw [if_neg hg]
          push_neg at hg
          rcases hsel with h1 | h2
          · exact absurd h1 hg.2
          · exact Or.inr h2
      · rw [if_neg hre]
        rcases hck : handleCommandKey cfg { st with key := -1 } k owner with
          ⟨sti, acts, keep, changed⟩
        have hkey := handleCommandKey_key cfg { st with key := -1 } k owner
        rw [hck] at hkey
        refine Or.inl ?_
        simp only []
        split <;> simpa using hkey

/-- C10 witness: the quit key 'q' on a one-entry list yields index -1. -/
theorem keypress_choice_in_range_witness :
    (handleKeyPress cfgClick (initState [['a']]) 113 Option.none).1.key = -1 ∨
    (0 ≤ (handleKeyPress cfgClick (initState [['a']]) 113 Option.none).1.key ∧
      (handleKeyPress cfgClick (initState [['a']]) 113 Option.none).1.key
        < ((handleKeyPress cfgClick (initState [['a']])
            113 Option.none).1.buffers.length : Int)) :=
  keypress_choice_in_range cfgClick (initState [['a']]) 113 Option.none
    (Or.inl (by decide))

/-! ## C6: SelectionClear -/

/-- C6 counterexample: on SelectionClear in non-daemon mode the latest
revision stops the main loop *immediately* — here with a stored request
still pending and no action emitted — rather than scheduling the exit
after the pending request resolves. -/
theorem selection_clear_counterexample :
    stPend.pending = true ∧
    handleSelectionClear cfgPaste stPend (some 9)
      = ({ stPend with stayinloop := false }, []) := by decide

/-- C6 (amended): on SelectionClear with `exitnext` not yet set: in
non-daemon mode the program exits immediately (a pending request is
dropped, not awaited); in daemon mode it stays alive; in continuous mode
(implying daemon) with a non-full list it immediately requests the new
owner's selection so the SelectionNotify handler can append it. -/
theorem selection_clear_behaviour (cfg : Config) (st : MState)
    (owner : Option Nat) (o : Nat)
    (hexit : st.exitnext = false) :
    (cfg.daemon = false →
      handleSelectionClear cfg st owner = ({ st with stayinloop := false }, [])) ∧
    (cfg.daemon = true →
      (handleSelectionClear cfg st owner).1.stayinloop = st.stayinloop) ∧
    (cfg.daemon = true → cfg.continuous = true → st.buffers.length < MAXNUM →
      owner = some o → o ≠ cfg.w →
      XAction.convertSelection ∈ (handleSelectionClear cfg st owner).2) := by
  refine ⟨?_, ?_, ?_⟩
  · intro hd
    simp [handleSelectionClear, hexit, hd]
  · intro hd
    unfold handleSelectionClear
    rw [if_neg (by simp [hexit]), if_neg (by simp [hd])]
    split_ifs <;> first
      | rfl
      | (dsimp only; split_ifs <;> rfl)
  · intro hd hc hlen howner hne
    subst howner
    simp [handleSelectionClear, hexit, hd, hc, RequestPrimarySelection, hne,
      Nat.not_le.mpr hlen]

/-- C6 witness: a continuous daemon with one entry and an outside owner. -/
theorem selection_clear_behaviour_witness :
    (cfgCont.daemon = false →
      handleSelectionClear cfgCont (initState [['a']]) (some 9)
        = ({ initState [['a']] with stayinloop := false }, [])) ∧
    (cfgCont.daemon = true →
      (handleSelectionClear cfgCont (initState [['a']])
        (some 9)).1.stayinloop = (initState [['a']]).stayinloop) ∧
    (cfgCont.daemon = true → cfgCont.continuous = true →
      (initState [['a']]).buffers.length < MAXNUM →
      (some 9 : Option Nat) = some 9 → (9 : Nat) ≠ cfgCont.w →
      XAction.convertSelection
        ∈ (handleSelectionClear cfgCont (initState [['a']]) (some 9)).2) :=
  selection_clear_behaviour cfgCont (initState [['a']]) (some 9) 9 (by decide)

/-- `matchingNotifies` distributes over appended action lists. -/
theorem matchingNotifies_append (a b : List XAction)
    (re : XSelectionRequestEvent) :
    matchingNotifies (a ++ b) re = matchingNotifies a re + matchingNotifies b re := by
  simp [matchingNotifies, List.filter_append]

/-- A refusal is one matching notify. -/
theorem matchingNotifies_refuse (re : XSelectionRequestEvent) :
    matchingNotifies [RefuseSelection re] re = 1 := by
  simp [matchingNotifies, RefuseSelection, isMatchingNotify]

/-- `SendSelection` emits exactly one SelectionNotify matching its request,
on every path (refusals included). -/
theorem matchingNotifies_sendSelection (t : Nat) (re : XSelectionRequestEvent)
    (chars : List Char) (so : Bool) :
    matchingNotifies (SendSelection t re chars so).2 re = 1 := by
  unfold SendSelection
  dsimp only
  split_ifs <;> simp [matchingNotifies, RefuseSelection, isMatchingNotify]

/-- `AnswerSelection` emits exactly one SelectionNotify matching its
request, on every path. -/
theorem matchingNotifies_answerSelection (t : Nat)
    (ext : Option (Nat → List Char → Bool)) (re : XSelectionRequestEvent)
    (sel : Option (List Char)) (so rep : Bool) :
    matchingNotifies (AnswerSelection t ext re sel so rep).2 re = 1 := by
  unfold AnswerSelection
  cases sel with
  | none => simp [matchingNotifies, RefuseSelection, isMatchingNotify]
  | some s =>
    dsimp only
    split_ifs
    · exact matchingNotifies_sendSelection t re s so
    · simp [matchingNotifies, RefuseSelection, isMatchingNotify]
    · simp [matchingNotifies, RefuseSelection, isMatchingNotify]

/-- A focus restore is not a notify. -/
theorem matchingNotifies_setFocus (p : Nat) (re : XSelectionRequestEvent) :
    matchingNotifies [XAction.setFocus p] re = 0 := rfl

/-- A leading focus restore does not change the notify count. -/
theorem matchingNotifies_setFocus_cons (p : Nat) (rest : List XAction)
    (re : XSelectionRequestEvent) :
    matchingNotifies (XAction.setFocus p :: rest) re
      = matchingNotifies rest re := by
  simp [matchingNotifies, List.filter_cons, isMatchingNotify]

/-- No actions, no notifies. -/
theorem matchingNotifies_nil (re : XSelectionRequestEvent) :
    matchingNotifies [] re = 0 := rfl

/-! ## C2: repeat within the short-time window -/

/-- C2: if the handler served an answer for `re1` at `now1` (its serve time
`last` was updated to `now1`), and `re2` — same target, from another
client, well-timed, with no external helper configured — arrives at most
`SHORT_INTERVAL` (80 ms, `interval` µs) after that serve, then the answer
sent for `re2` is bytewise identical to the answer sent for `re1`: the same
payload when a payload was sent, a refusal exactly when `re1` was
refused. -/
theorem repeat_within_window (cfg : Config) (st stA stB : MState)
    (re1 re2 : XSelectionRequestEvent) (now1 now2 : Timeval)
    (f1 f2 : Nat) (aA aB : List XAction)
    (h1 : handleSelectionRequest cfg st re1 now1 f1 = (stA, aA))
    (h2 : handleSelectionRequest cfg stA re2 now2 f2 = (stB, aB))
    (hserve : stA.last = now1)
    (hnew : st.last ≠ now1)
    (hext : cfg.external = Option.none)
    (hself2 : re2.requestor ≠ cfg.w)
    (htgt : re2.target = re1.target)
    (ht1 : re1.time = currentTime ∨ cfg.t ≤ re1.time)
    (ht2 : re2.time = currentTime ∨ cfg.t ≤ re2.time)
    (hmono : micros now1 ≤ micros now2)
    (hclose : micros now2 - micros now1 ≤ interval) :
    sentBytes aB = sentBytes aA := by
  simp only [handleSelectionRequest] at h1
  rw [hext] at h1
  by_cases hself1 : re1.requestor = cfg.w
  · rw [if_pos hself1, Prod.mk.injEq] at h1
    exact absurd (by rw [h1.1]; exact hserve) hnew
  rw [if_neg hself1] at h1
  by_cases htarg1 : re1.target = XAtom.targets
  · rw [if_pos htarg1, Prod.mk.injEq] at h1
    exact absurd (by rw [h1.1]; exact hserve) hnew
  rw [if_neg htarg1] at h1
  by_cases hlatch1 : cfg.click = false ∧ re1.target = XAtom.mozTextInternal
  · rw [if_pos hlatch1] at h1
    rw [hlatch1.2] at h1
    rw [if_pos (show UnsupportedSelection XAtom.mozTextInternal false = true
      from by decide), Prod.mk.injEq] at h1
    refine absurd ?_ hnew
    rw [← h1.1] at hserve
    exact hserve
  rw [if_neg hlatch1] at h1
  by_cases hsup1 : UnsupportedSelection re1.target false = true
  · rw [if_pos hsup1, Prod.mk.injEq] at h1
    exact absurd (by rw [h1.1]; exact hserve) hnew
  rw [if_neg hsup1] at h1
  have hsup1f : UnsupportedSelection re1.target false = false := by
    cases hu : UnsupportedSelection re1.target false
    · rfl
    · exact absurd hu hsup1
  by_cases hshow1 : st.showing = true
  · rw [if_pos hshow1, Prod.mk.injEq] at h1
    exact absurd (by rw [h1.1]; exact hserve) hnew
  rw [if_neg hshow1] at h1
  have hsup2 : UnsupportedSelection re2.target false = false := by
    rw [htgt]
    exact hsup1f
  have htg2 : re2.target ≠ XAtom.targets := by
    rw [htgt]
    exact htarg1
  have hmoz2 : re2.target ≠ XAtom.mozTextInternal := by
    rw [htgt]
    intro hm
    rw [hm] at hsup1f
    exact absurd hsup1f (by decide)
  have hshowf : st.showing = false := by
    revert hshow1
    cases st.showing <;> simp
  by_cases hfire1 : st.firefox = true
  · rw [if_pos hfire1, Prod.mk.injEq] at h1
    obtain ⟨hA, haA⟩ := h1
    have hshow2 : stA.showing = false := by
      rw [← hA]
      exact hshowf
    have hfire2 : stA.firefox = false := by rw [← hA]
    have hbuf : stA.buffers = st.buffers := by rw [← hA]
    have hkey : stA.key = st.key := by rw [← hA]
    have hstc : ShortTime stA.last now2 interval = true := by
      rw [hserve]
      exact shortTime_of_elapsed now1 now2 interval hmono hclose
    rw [serve_branch_bytes cfg stA re2 now2 f2 stB aB h2 hext hself2 hsup2
      htg2 hmoz2 hshow2 hfire2 ht2 hstc]
    rw [← haA, sentBytes_answerSelection cfg.t re1 _ true hsup1f htarg1 ht1,
      hbuf, hkey]
  rw [if_neg hfire1] at h1
  by_cases hch1 : cfg.click = true ∧ st.chosen = true
  · rw [if_pos hch1, Prod.mk.injEq] at h1
    obtain ⟨hA, haA⟩ := h1
    have hshow2 : stA.showing = false := by
      rw [← hA]
      exact hshowf
    have hfire2 : stA.firefox = false := by
      rw [← hA]
      revert hfire1
      cases st.firefox <;> simp
    have hbuf : stA.buffers = st.buffers := by rw [← hA]
    have hkey : stA.key = st.key := by rw [← hA]
    have hstc : ShortTime stA.last now2 interval = true := by
      rw [hserve]
      exact shortTime_of_elapsed now1 now2 interval hmono hclose
    rw [serve_branch_bytes cfg stA re2 now2 f2 stB aB h2 hext hself2 hsup2
      htg2 hmoz2 hshow2 hfire2 ht2 hstc]
    rw [← haA, sentBytes_answerSelection cfg.t re1 _ false hsup1f htarg1 ht1,
      hbuf, hkey]
  rw [if_neg hch1] at h1
  by_cases hst1 : ShortTime st.last now1 interval = true
  · rw [if_pos hst1, Prod.mk.injEq] at h1
    obtain ⟨hA, haA⟩ := h1
    have hshow2 : stA.showing = false := by
      rw [← hA]
      exact hshowf
    have hfire2 : stA.firefox = false := by
      rw [← hA]
      revert hfire1
      cases st.firefox <;> simp
    have hbuf : stA.buffers = st.buffers := by rw [← hA]
    have hkey : stA.key = st.key := by rw [← hA]
    have hstc : ShortTime stA.last now2 interval = true := by
      rw [hserve]
      exact shortTime_of_elapsed now1 now2 interval hmono hclose
    rw [serve_branch_bytes cfg stA re2 now2 f2 stB aB h2 hext hself2 hsup2
      htg2 hmoz2 hshow2 hfire2 ht2 hstc]
    rw [← haA, sentBytes_answerSelection cfg.t re1 _ true hsup1f htarg1 ht1,
      hbuf, hkey]
  · rw [if_neg hst1, Prod.mk.injEq] at h1
    exfalso
    have hlast : stA.last = clampLast st.last now1 := by
      rw [← h1.1]
      unfold handleShowWindowTail
      dsimp only
      split <;> rfl
    rw [hserve] at hlast
    unfold clampLast at hlast
    split_ifs at hlast with hcl
    · have hs := congrArg Timeval.sec hlast
      dsimp only at hs
      omega
    · exact hnew hlast.symm

/-- C2 witness: a short-time serve at `nowA` and its 50 ms repeat. -/
theorem repeat_within_window_witness :
    sentBytes aBw = sentBytes aAw :=
  repeat_within_window cfgPaste stShort stAw { stAw with last := nowB }
    reString reString6 nowA nowB 7 7 aAw aBw
    (by decide) (by decide) (by decide) (by decide) rfl (by decide)
    (by decide) (Or.inl (by decide)) (Or.inl (by decide))
    (by decide) (by decide)

/-! ## C1: the must-reply obligation -/

/-- C1 counterexample: in paste mode a STRING request is stored as pending
and the menu mapped; the user presses 'q'; on the resulting UnmapNotify the
loop exits (`exitnext` is checked before the pending answer) with the
request still pending and *zero* SelectionNotify events matching the
request ever emitted — the pending request is dropped on the 'q'/F5 exit
path. -/
theorem must_reply_counterexample :
    matchingNotifies (run cfgPaste (initState [['a']]) evC1).2 reString = 0 ∧
    (run cfgPaste (initState [['a']]) evC1).1.pending = true ∧
    (run cfgPaste (initState [['a']]) evC1).1.stayinloop = false := by decide

/-- C1 (amended): every SelectionRequest the loop processes receives
exactly one SelectionNotify with matching `selection`, `target` and `time`
on all immediate-answer paths (and in click mode also when it is stored,
since a stored request is refused at arrival); in paste mode a stored
request receives no notify at arrival but is recorded pending, and the
normal UnmapNotify path (exit not requested, no forced fabrication) then
answers the stored request with exactly one matching notify and clears
`pending`.  The exceptions are the exit paths ('q'/F5 and non-daemon
SelectionClear), where a paste-mode pending request is dropped without a
reply. -/
theorem request_answered_or_stored :
    (∀ (cfg : Config) (st : MState) (re : XSelectionRequestEvent)
        (now : Timeval) (focusNow : Nat),
      matchingNotifies (handleSelectionRequest cfg st re now focusNow).2 re = 1 ∨
      (cfg.click = false ∧
        matchingNotifies (handleSelectionRequest cfg st re now focusNow).2 re = 0 ∧
        (handleSelectionRequest cfg st re now focusNow).1.pending = true ∧
        (handleSelectionRequest cfg st re now focusNow).1.request = re)) ∧
    (∀ (cfg : Config) (st : MState) (now : Timeval),
      cfg.click = false → cfg.w ≠ cfg.f → st.exitnext = false →
      st.pending = true → ¬(st.openbykey = true ∧ cfg.force = true) →
      matchingNotifies (handleUnmapNotify cfg st cfg.w now).2 st.request = 1 ∧
      (handleUnmapNotify cfg st cfg.w now).1.pending = false) := by
  constructor
  · intro cfg st re now focusNow
    have htail2 : ∀ (s : MState) (fo : Nat),
        (handleShowWindowTail cfg s fo).2 = [XAction.mapMenu] := by
      intro s fo
      rfl
    have htailp : ∀ (s : MState) (fo : Nat),
        (handleShowWindowTail cfg s fo).1.pending = s.pending := by
      intro s fo
      unfold handleShowWindowTail
      dsimp only
      split <;> rfl
    have htailr : ∀ (s : MState) (fo : Nat),
        (handleShowWindowTail cfg s fo).1.request = s.request := by
      intro s fo
      unfold handleShowWindowTail
      dsimp only
      split <;> rfl
    simp only [handleSelectionRequest]
    generalize (if cfg.click = false ∧ re.target = XAtom.mozTextInternal
      then { st with firefox := true } else st) = s1
    split
    · exact Or.inl (matchingNotifies_refuse re)
    split
    · exact Or.inl (matchingNotifies_sendSelection cfg.t re [] false)
    split
    · exact Or.inl (matchingNotifies_refuse re)
    split
    · exact Or.inl (matchingNotifies_refuse re)
    split
    · exact Or.inl (matchingNotifies_answerSelection cfg.t cfg.external re _ false true)
    split
    · exact Or.inl (matchingNotifies_answerSelection cfg.t cfg.external re _ false false)
    split
    · exact Or.inl (matchingNotifies_answerSelection cfg.t cfg.external re _ false true)
    · by_cases hc : cfg.click = true
      · refine Or.inl ?_
        rw [if_pos hc, matchingNotifies_append, htail2, matchingNotifies_refuse]
        rfl
      · refine Or.inr ⟨by simpa using hc, ?_, ?_, ?_⟩
        · rw [if_neg hc, matchingNotifies_append, htail2]
          rfl
        · rw [htailp]
        · rw [htailr]
  · intro cfg st now hclick hwf hexit hpend hnof
    rcases hp : st.prev with _ | p <;>
      (simp only [handleUnmapNotify, hp]
       simp [hclick, hexit, hpend, hwf, hnof, matchingNotifies_append,
         matchingNotifies_answerSelection, matchingNotifies_setFocus,
         matchingNotifies_nil, matchingNotifies_setFocus_cons])

/-- C1 witness: the UnmapNotify part on a concrete paste-mode pending
state: exactly one matching notify is sent and `pending` is cleared. -/
theorem request_answered_or_stored_witness :
    matchingNotifies (handleUnmapNotify cfgPaste stUnmapW cfgPaste.w
      { sec := 101, usec := 0 }).2 stUnmapW.request = 1 ∧
    (handleUnmapNotify cfgPaste stUnmapW cfgPaste.w
      { sec := 101, usec := 0 }).1.pending = false :=
  request_answered_or_stored.2 cfgPaste stUnmapW { sec := 101, usec := 0 }
    rfl (by decide) (by decide) (by decide) (by decide)

end Multiselect
